import Mathlib

set_option autoImplicit false

/-!
Shallow embedding of `src/tools/download_manager.py` (repository
Nirlau64/MinecraftServerInstall) and proofs about it.

Modelling conventions:
* A filesystem is an association list from paths to file contents
  (a file's bytes, as a list of naturals).  `none` on lookup means the
  path does not exist.
* The hash functions of Python's `hashlib` are external library code, not
  part of this repository; they are modelled as an abstract parameter
  `H : HashFam` mapping an algorithm name and file contents to a hex-digest
  string.  All theorems about the verifier hold for every such `H`.
* Machine floats (`retry_delay`, `retry_backoff`, times) are modelled as
  rationals; wall-clock time is an explicit parameter.
* Network transport is modelled by an oracle `env : Nat → TransportEvent`
  giving, per attempt index, the outcome of `_download_with_resume`'s
  single HTTP request (success with the streamed body, an `HTTPError`
  with a status code, a `URLError`, or any other exception).  Partial
  writes of a mid-stream failure are abstracted: an erroring attempt
  leaves the destination unchanged.
* Python exceptions are `Except String` values; `download_manager.py`'s
  `try`/`except` blocks become explicit `match`es on them.
-/

namespace DownloadManagerModel

/-- A filesystem: association list from path to file contents (bytes). -/
abbrev FS := List (String × List Nat)

/-- Look a path up in the filesystem (`Path.exists` / reading the file). -/
def fsLookup (fs : FS) (p : String) : Option (List Nat) :=
  fs.lookup p

/-- Write (create or overwrite) a file. -/
def fsWrite (fs : FS) (p : String) (c : List Nat) : FS :=
  (p, c) :: fs.filter (fun e => e.1 != p)

/-- Delete a file (`Path.unlink`); a no-op when the path is absent. -/
def fsErase (fs : FS) (p : String) : FS :=
  fs.filter (fun e => e.1 != p)

/-- Abstract family of hash functions: algorithm name and file bytes to a
hex-digest string.  Python's `hashlib` is external library code, so it is
a parameter of the model. -/
abbrev HashFam := String → List Nat → String

/-- Python truthiness of an `Optional[str]`: `None` and `""` are falsy. -/
def strGiven (o : Option String) : Bool :=
  match o with
  | none => false
  | some s => !s.isEmpty

/-- Python's `str.lower()` (for the ASCII strings handled here), defined
over the string's character list. -/
def pyLower (s : String) : String :=
  ⟨s.data.map Char.toLower⟩

/-! ## ChecksumVerifier (`download_manager.py` lines 150-207) -/

/-- The keys of `ChecksumVerifier.ALGORITHMS`. -/
def ALGORITHMS : List String := ["md5", "sha1", "sha256", "sha512"]

/-- Model of `ChecksumVerifier.verify_file` (lines 160-183).  Lowercases the
algorithm, raises `ValueError` (the `.error` branch) for an unsupported
algorithm before touching the filesystem, returns `false` for an absent
path, and otherwise compares the computed digest to the expected one
case-insensitively. -/
def verify_file (H : HashFam) (fs : FS) (file_path : String)
    (expected_checksum : String) (algorithm : String) : Except String Bool :=
  let alg := pyLower algorithm
  if !ALGORITHMS.contains alg then
    .error ("Unsupported checksum algorithm: " ++ alg)
  else
    match fsLookup fs file_path with
    | none => .ok false
    | some data =>
        .ok (pyLower (H alg data) == pyLower expected_checksum)

/-- Model of `ChecksumVerifier.calculate_checksum` (lines 185-207).  Lowercases the
algorithm, raises `ValueError` for an unsupported algorithm before touching
the filesystem, returns `None` for an absent path, and otherwise returns
the hex digest. -/
def calculate_checksum (H : HashFam) (fs : FS) (file_path : String)
    (algorithm : String) : Except String (Option String) :=
  let alg := pyLower algorithm
  if !ALGORITHMS.contains alg then
    .error ("Unsupported checksum algorithm: " ++ alg)
  else
    match fsLookup fs file_path with
    | none => .ok none
    | some data => .ok (some (H alg data))

/-! ## Configuration and result types (`download_manager.py` lines 56-84) -/

/-- Model of `DownloadConfig` (lines 56-67); floats are modelled as rationals. -/
structure DownloadConfig where
  max_retries : Nat
  retry_delay : ℚ
  retry_backoff : ℚ
  timeout : Nat
  chunk_size : Nat
  show_progress : Bool
  max_parallel : Nat

/-- The dataclass defaults of `DownloadConfig`. -/
def defaultConfig : DownloadConfig :=
  ⟨3, 1, 2, 30, 8192, true, 4⟩

/-- Model of `DownloadResult` (lines 70-79). -/
structure DownloadResult where
  success : Bool
  file_path : Option String
  error_message : Option String
  file_size : Nat
  download_time : ℚ
  checksum_verified : Bool
  checksum_value : Option String

/-! ## Transport oracle and `_download_with_resume` (lines 305-366) -/

/-- Outcome of the single HTTP request an attempt makes: the body streamed
to completion, an `HTTPError` with a status code, a `URLError`, or any
other exception raised during the transfer. -/
inductive TransportEvent where
  | ok (streamed : List Nat)
  | httpError (code : Nat) (reason : String)
  | urlError (reason : String)
  | otherError (msg : String)

/-- Model of `DownloadManager._download_with_resume` (lines 305-366) as a filesystem
transformer.  On a streamed body the destination is opened with mode `ab`
when `resume` is set (appending to any existing bytes) and `wb` otherwise
(truncating); an `HTTPError` 416 while resuming means the file is already
complete and is a success without a write; every other `HTTPError`,
`URLError` or other exception is re-raised as a `DownloadError` with the
corresponding message. -/
def downloadWithResume (fs : FS) (output_path : String) (resume : Bool)
    (ev : TransportEvent) : Except String FS :=
  match ev with
  | .ok streamed =>
      let prior := if resume then (fsLookup fs output_path).getD [] else []
      .ok (fsWrite fs output_path (prior ++ streamed))
  | .httpError code reason =>
      if code == 416 && resume then .ok fs
      else .error ("HTTP Error " ++ toString code ++ ": " ++ reason)
  | .urlError reason => .error ("URL Error: " ++ reason)
  | .otherError msg => .error ("Download error: " ++ msg)

/-! ## `DownloadManager.download_file` (lines 221-303) -/

/-- Data returned by one successful pass through the body of the retry
loop's `try` block (lines 259-286), short of the final result record. -/
structure AttemptSuccess where
  checksum_verified : Bool
  checksum_value : Option String
  file_size : Nat

/-- One iteration of the retry loop's `try` block (lines 259-286): perform
the transfer, then — with `checksum_verified` initialised to `True`
(line 263) — verify the checksum when one was provided, deleting the
destination and raising `DownloadError` on a mismatch (lines 269-272),
compute the actual checksum for the record (line 275) and read the file's
size (line 282).  Returns the filesystem after the iteration together with
either the attempt's data or the raised exception's message. -/
def attemptOnce (H : HashFam) (fs : FS) (output_path : String)
    (expected_checksum : Option String) (checksum_algorithm : String)
    (resumeEff : Bool) (ev : TransportEvent) : FS × Except String AttemptSuccess :=
  match downloadWithResume fs output_path resumeEff ev with
  | .error msg => (fs, .error msg)
  | .ok fs1 =>
      let step2 : FS × Except String Bool :=
        if strGiven expected_checksum then
          match verify_file H fs1 output_path (expected_checksum.getD "")
              checksum_algorithm with
          | .error m => (fs1, .error m)
          | .ok true => (fs1, .ok true)
          | .ok false =>
              (fsErase fs1 output_path,
               .error ("Checksum verification failed for " ++ output_path))
        else (fs1, .ok true)
      match step2 with
      | (fs2, .error m) => (fs2, .error m)
      | (fs2, .ok cv) =>
          match calculate_checksum H fs2 output_path checksum_algorithm with
          | .error m => (fs2, .error m)
          | .ok actual =>
              match fsLookup fs2 output_path with
              | none => (fs2, .error ("FileNotFoundError: " ++ output_path))
              | some content => (fs2, .ok ⟨cv, actual, content.length⟩)

/-- Result of running the retry loop (lines 258-295): the loop's final
outcome (the attempt data returned, or the exception re-raised after
exhaustion), the filesystem, the backoff sleeps performed in order, and
the number of transfer attempts actually made. -/
structure LoopResult where
  outcome : Except String AttemptSuccess
  fs : FS
  delays : List ℚ
  attemptsMade : Nat

/-- The `for attempt in range(max_retries + 1)` loop (lines 258-295),
by recursion on the number of attempts still permitted (`fuel`; the loop
is entered with `max_retries + 1`).  A failed attempt with fuel remaining
sleeps `retry_delay * retry_backoff ^ attempt` (line 290) and continues
with the next attempt index; a failed last attempt re-raises. -/
def downloadLoop (H : HashFam) (cfg : DownloadConfig) (env : Nat → TransportEvent)
    (output_path : String) (expected_checksum : Option String)
    (checksum_algorithm : String) (resume : Bool) :
    Nat → Nat → FS → LoopResult
  | 0, _, fs => ⟨.error "retry loop exhausted", fs, [], 0⟩
  | fuel + 1, attempt, fs =>
      let step := attemptOnce H fs output_path expected_checksum
        checksum_algorithm (resume && decide (0 < attempt)) (env attempt)
      match step.2 with
      | .ok d => ⟨.ok d, step.1, [], 1⟩
      | .error msg =>
          if fuel = 0 then ⟨.error msg, step.1, [], 1⟩
          else
            let delay := cfg.retry_delay * cfg.retry_backoff ^ attempt
            let rest := downloadLoop H cfg env output_path expected_checksum
              checksum_algorithm resume fuel (attempt + 1) step.1
            ⟨rest.outcome, rest.fs, delay :: rest.delays, rest.attemptsMade + 1⟩

/-- Everything observable about one `download_file` call: the returned
`DownloadResult`, the backoff sleeps performed, the number of transfer
attempts made, and the final filesystem. -/
structure RunOutput where
  result : DownloadResult
  delays : List ℚ
  attemptsMade : Nat
  fs : FS

/-- The non-short-circuit path of `download_file`: run the retry loop from
attempt 0 and convert its outcome into a success result (lines 279-286)
or, once the last attempt's exception propagates to the outer handler, a
failure result (lines 297-303).  `elapsed` stands for
`time.time() - start_time`. -/
def downloadMain (H : HashFam) (cfg : DownloadConfig) (env : Nat → TransportEvent)
    (elapsed : ℚ) (fs : FS) (output_path : String)
    (expected_checksum : Option String) (checksum_algorithm : String)
    (resume : Bool) : RunOutput :=
  let L := downloadLoop H cfg env output_path expected_checksum
    checksum_algorithm resume (cfg.max_retries + 1) 0 fs
  match L.outcome with
  | .ok d =>
      ⟨⟨true, some output_path, none, d.file_size, elapsed,
        d.checksum_verified, d.checksum_value⟩, L.delays, L.attemptsMade, L.fs⟩
  | .error m =>
      ⟨⟨false, none, some m, 0, elapsed, false, none⟩,
       L.delays, L.attemptsMade, L.fs⟩

/-- Model of `DownloadManager.download_file` (lines 221-303).  `env` gives each
attempt's transport outcome.  When the destination exists and a (truthy)
expected checksum is supplied, the file is verified up front and a
matching file short-circuits to success with `download_time = 0.0` and no
transfer attempt (lines 244-255) — the `resume` flag is not consulted
there; an exception from that verification (unsupported algorithm) falls
through to the outer handler (lines 297-303).  Otherwise the retry loop
runs via `downloadMain`. -/
def download_file (H : HashFam) (cfg : DownloadConfig) (env : Nat → TransportEvent)
    (elapsed : ℚ) (fs : FS) (output_path : String)
    (expected_checksum : Option String) (checksum_algorithm : String)
    (resume : Bool) : RunOutput :=
  let runLoop : RunOutput := downloadMain H cfg env elapsed fs output_path
    expected_checksum checksum_algorithm resume
  if (fsLookup fs output_path).isSome && strGiven expected_checksum then
    match verify_file H fs output_path (expected_checksum.getD "")
        checksum_algorithm with
    | .ok true =>
        ⟨⟨true, some output_path, none,
          ((fsLookup fs output_path).getD []).length, 0, true,
          expected_checksum⟩, [], 0, fs⟩
    | .ok false => runLoop
    | .error m =>
        ⟨⟨false, none, some m, 0, elapsed, false, none⟩, [], 0, fs⟩
  else runLoop

/-! ## `DownloadManager.batch_download` (lines 368-412) -/

/-- Python `results[url] = result` on a `dict` modelled as an association
list: an existing key keeps its position and gets the new value, a new key
is appended. -/
def dictInsert (d : List (String × DownloadResult)) (k : String)
    (v : DownloadResult) : List (String × DownloadResult) :=
  if d.any (fun e => e.1 == k) then
    d.map (fun e => if e.1 == k then (e.1, v) else e)
  else d ++ [(k, v)]

/-- The sequential branch of `batch_download` (lines 406-410): requests run
in order on the shared filesystem, each with `download_file(url, path)` —
no expected checksum, algorithm `sha256`, resume enabled — and the result
is stored under the request's URL.  `envs i` and `elap i` are request
`i`'s transport oracle and elapsed time. -/
def batchSeq (H : HashFam) (cfg : DownloadConfig) (envs : Nat → Nat → TransportEvent)
    (elap : Nat → ℚ) :
    List (String × String) → Nat → FS → List (String × DownloadResult) →
      List (String × DownloadResult) × FS
  | [], _, fs, acc => (acc, fs)
  | (url, path) :: rest, i, fs, acc =>
      let out := download_file H cfg (envs i) (elap i) fs path none "sha256" true
      batchSeq H cfg envs elap rest (i + 1) out.fs (dictInsert acc url out.result)

/-- One iteration of the parallel branch's collection loop
(lines 396-405): as future `x` (request index paired with its
`(url, path)`) completes, its result is stored under the request's URL.
The `try`/`except` around `future.result()` is the worker boundary; in
the model `download_file` is total, so the `except` arm (lines 401-405)
is never taken.  Concurrent interleaving of filesystem writes is
abstracted: request `i` acts on its own filesystem view `fss i`. -/
def parStep (H : HashFam) (cfg : DownloadConfig) (envs : Nat → Nat → TransportEvent)
    (elap : Nat → ℚ) (fss : Nat → FS) (acc : List (String × DownloadResult))
    (x : Nat × String × String) : List (String × DownloadResult) :=
  dictInsert acc x.2.1
    (download_file H cfg (envs x.1) (elap x.1) (fss x.1) x.2.2
      none "sha256" true).result

/-- The parallel branch of `batch_download` (lines 382-405): every request
is submitted as a future and `parStep` collects each as it completes.
`completed` is the futures in completion order — theorems assume it is a
permutation of the enumerated request list. -/
def batchPar (H : HashFam) (cfg : DownloadConfig) (envs : Nat → Nat → TransportEvent)
    (elap : Nat → ℚ) (fss : Nat → FS)
    (completed : List (Nat × String × String)) : List (String × DownloadResult) :=
  completed.foldl (parStep H cfg envs elap fss) []

/-- Model of `DownloadManager.batch_download` (lines 368-412): the parallel branch
runs when `parallel` is set and there is more than one request, the
sequential branch otherwise. -/
def batch_download (H : HashFam) (cfg : DownloadConfig)
    (envs : Nat → Nat → TransportEvent) (elap : Nat → ℚ) (fss : Nat → FS)
    (fs0 : FS) (requests : List (String × String)) (parallel : Bool)
    (completed : List (Nat × String × String)) : List (String × DownloadResult) :=
  if parallel && decide (1 < requests.length) then
    batchPar H cfg envs elap fss completed
  else
    (batchSeq H cfg envs elap requests 0 fs0 []).1

/-- A concrete hash family for evaluating the model at specific inputs:
the digest of a byte list is a run of letters whose length determines the
value.  Any member of `HashFam` works for the universally quantified
theorems; this one makes witnesses computable. -/
def demoHash : HashFam := fun _ data =>
  String.mk (List.replicate (data.foldl (fun a b => a + b + 1) 0) 'a')

/-- A legal configuration whose backoff multiplier is 1 (constant
delays), used to evaluate the delay schedule. -/
def constantBackoffConfig : DownloadConfig :=
  ⟨3, 1, 1, 30, 8192, true, 4⟩

/-! ## Theorems

First some helper lemmas shared between the claims, then one theorem per
claim (with its witness or counterexample). -/

section LoopLemmas

variable (H : HashFam) (cfg : DownloadConfig) (env : Nat → TransportEvent)
variable (e : ℚ) (fs : FS) (out : String) (exp : Option String) (alg : String) (r : Bool)

/-- One-layer unfolding of the retry loop at positive fuel. -/
theorem downloadLoop_succ (fuel attempt : Nat) (fs : FS) :
    downloadLoop H cfg env out exp alg r (fuel + 1) attempt fs =
      (match (attemptOnce H fs out exp alg (r && decide (0 < attempt))
          (env attempt)).2 with
       | .ok d =>
          (⟨.ok d,
            (attemptOnce H fs out exp alg (r && decide (0 < attempt))
              (env attempt)).1, [], 1⟩ : LoopResult)
       | .error msg =>
          if fuel = 0 then
            ⟨.error msg,
             (attemptOnce H fs out exp alg (r && decide (0 < attempt))
               (env attempt)).1, [], 1⟩
          else
            ⟨(downloadLoop H cfg env out exp alg r fuel (attempt + 1)
                (attemptOnce H fs out exp alg (r && decide (0 < attempt))
                  (env attempt)).1).outcome,
             (downloadLoop H cfg env out exp alg r fuel (attempt + 1)
                (attemptOnce H fs out exp alg (r && decide (0 < attempt))
                  (env attempt)).1).fs,
             cfg.retry_delay * cfg.retry_backoff ^ attempt ::
               (downloadLoop H cfg env out exp alg r fuel (attempt + 1)
                 (attemptOnce H fs out exp alg (r && decide (0 < attempt))
                   (env attempt)).1).delays,
             (downloadLoop H cfg env out exp alg r fuel (attempt + 1)
                (attemptOnce H fs out exp alg (r && decide (0 < attempt))
                  (env attempt)).1).attemptsMade + 1⟩) := rfl

/-- Structure of the retry loop, for any transport oracle: at most `fuel`
attempts are made, at least one when `fuel ≥ 1`, and the recorded sleeps
are exactly `retry_delay * retry_backoff ^ k` for the consecutive attempt
indices `k` starting at the loop's first attempt index. -/
theorem downloadLoop_spec :
    ∀ fuel attempt fs,
      (downloadLoop H cfg env out exp alg r fuel attempt fs).attemptsMade ≤ fuel ∧
      (1 ≤ fuel →
        1 ≤ (downloadLoop H cfg env out exp alg r fuel attempt fs).attemptsMade) ∧
      (downloadLoop H cfg env out exp alg r fuel attempt fs).delays =
        (List.range
            ((downloadLoop H cfg env out exp alg r fuel attempt fs).attemptsMade - 1)).map
          (fun k => cfg.retry_delay * cfg.retry_backoff ^ (attempt + k)) := by
  intro fuel
  induction fuel with
  | zero =>
      intro attempt fs
      simp [downloadLoop]
  | succ fuel ih =>
      intro attempt fs
      cases hstep :
          (attemptOnce H fs out exp alg (r && decide (0 < attempt)) (env attempt)).2 with
      | ok d =>
          rw [downloadLoop_succ]
          simp [hstep]
      | error msg =>
          rcases Nat.eq_zero_or_pos fuel with hf | hf
          · subst hf
            rw [downloadLoop_succ]
            simp [hstep]
          · have hne : fuel ≠ 0 := by omega
            obtain ⟨h1, h2, h3⟩ := ih (attempt + 1)
              (attemptOnce H fs out exp alg (r && decide (0 < attempt)) (env attempt)).1
            have h2' := h2 hf
            obtain ⟨s, hs⟩ := Nat.exists_eq_succ_of_ne_zero
              (show (downloadLoop H cfg env out exp alg r fuel (attempt + 1)
                (attemptOnce H fs out exp alg (r && decide (0 < attempt))
                  (env attempt)).1).attemptsMade ≠ 0 by omega)
            rw [downloadLoop_succ]
            simp only [hstep, if_neg hne]
            refine ⟨by simpa [hs] using Nat.succ_le_succ h1, fun _ => by simp, ?_⟩
            simp only [hs, Nat.add_sub_cancel] at h3 ⊢
            rw [h3, List.range_succ_eq_map, List.map_cons, List.map_map]
            refine congrArg₂ (fun a l => a :: l) (by simp) ?_
            refine List.map_congr_left ?_
            intro a _
            simp only [Function.comp]
            refine congrArg (fun n => cfg.retry_delay * cfg.retry_backoff ^ n) ?_
            omega

/-- Structure of the retry loop when every attempt raises: with fuel
`fuel + 1` the loop makes exactly `fuel + 1` attempts, then re-raises the
last attempt's message; any property `Q` that every attempt's resulting
filesystem satisfies holds of the final filesystem. -/
theorem downloadLoop_all_error (Q : FS → Prop) (msg : Nat → String)
    (h : ∀ a fs',
      (attemptOnce H fs' out exp alg (r && decide (0 < a)) (env a)).2 =
        .error (msg a) ∧
      Q (attemptOnce H fs' out exp alg (r && decide (0 < a)) (env a)).1) :
    ∀ fuel attempt fs,
      (downloadLoop H cfg env out exp alg r (fuel + 1) attempt fs).attemptsMade =
        fuel + 1 ∧
      (downloadLoop H cfg env out exp alg r (fuel + 1) attempt fs).outcome =
        .error (msg (attempt + fuel)) ∧
      Q (downloadLoop H cfg env out exp alg r (fuel + 1) attempt fs).fs := by
  intro fuel
  induction fuel with
  | zero =>
      intro attempt fs
      obtain ⟨he, hq⟩ := h attempt fs
      rw [downloadLoop_succ]
      simp [he, hq]
  | succ fuel ih =>
      intro attempt fs
      obtain ⟨he, hq⟩ := h attempt fs
      obtain ⟨i1, i2, i3⟩ := ih (attempt + 1)
        (attemptOnce H fs out exp alg (r && decide (0 < attempt)) (env attempt)).1
      have harith : attempt + 1 + fuel = attempt + (fuel + 1) := by omega
      rw [harith] at i2
      rw [downloadLoop_succ]
      simp only [he, if_neg (Nat.succ_ne_zero fuel)]
      exact ⟨by rw [i1], by rw [i2], i3⟩

/-- Lemma: `downloadMain` copies the loop's delay list unchanged. -/
theorem downloadMain_delays :
    (downloadMain H cfg env e fs out exp alg r).delays =
      (downloadLoop H cfg env out exp alg r (cfg.max_retries + 1) 0 fs).delays := by
  cases h : (downloadLoop H cfg env out exp alg r (cfg.max_retries + 1) 0 fs).outcome <;>
    simp [downloadMain, h]

/-- Lemma: `downloadMain` copies the loop's attempt count unchanged. -/
theorem downloadMain_attempts :
    (downloadMain H cfg env e fs out exp alg r).attemptsMade =
      (downloadLoop H cfg env out exp alg r (cfg.max_retries + 1) 0 fs).attemptsMade := by
  cases h : (downloadLoop H cfg env out exp alg r (cfg.max_retries + 1) 0 fs).outcome <;>
    simp [downloadMain, h]

/-- Lemma: `downloadMain` copies the loop's final filesystem unchanged. -/
theorem downloadMain_fs :
    (downloadMain H cfg env e fs out exp alg r).fs =
      (downloadLoop H cfg env out exp alg r (cfg.max_retries + 1) 0 fs).fs := by
  cases h : (downloadLoop H cfg env out exp alg r (cfg.max_retries + 1) 0 fs).outcome <;>
    simp [downloadMain, h]

/-- When the loop re-raises, `downloadMain` builds the failure result of
lines 299-303. -/
theorem downloadMain_result_error (m : String)
    (h : (downloadLoop H cfg env out exp alg r (cfg.max_retries + 1) 0 fs).outcome =
      .error m) :
    (downloadMain H cfg env e fs out exp alg r).result =
      ⟨false, none, some m, 0, e, false, none⟩ := by
  simp [downloadMain, h]

/-- With no expected checksum the short-circuit never fires and
`download_file` is the retry loop. -/
theorem download_file_no_expected :
    download_file H cfg env e fs out none alg r =
      downloadMain H cfg env e fs out none alg r := by
  simp [download_file, strGiven]

/-- Every `download_file` call either runs the retry loop or returns from
the pre-loop block with no attempts and no sleeps. -/
theorem download_file_main_or_short :
    download_file H cfg env e fs out exp alg r =
      downloadMain H cfg env e fs out exp alg r ∨
    ((download_file H cfg env e fs out exp alg r).delays = [] ∧
     (download_file H cfg env e fs out exp alg r).attemptsMade = 0) := by
  by_cases hcond : ((fsLookup fs out).isSome && strGiven exp) = true
  · cases hv : verify_file H fs out (exp.getD "") alg with
    | error m =>
        right
        constructor <;> simp [download_file, hcond, hv]
    | ok b =>
        cases b
        · left
          simp [download_file, hcond, hv]
        · right
          constructor <;> simp [download_file, hcond, hv]
  · left
    rw [Bool.not_eq_true] at hcond
    simp [download_file, hcond]

end LoopLemmas

/-- Looking up a just-written file returns the written contents. -/
theorem fsLookup_fsWrite_self (fs : FS) (p : String) (c : List Nat) :
    fsLookup (fsWrite fs p c) p = some c := by
  simp [fsLookup, fsWrite, List.lookup]

/-- Looking up a just-deleted file fails. -/
theorem fsLookup_fsErase (fs : FS) (p : String) :
    fsLookup (fsErase fs p) p = none := by
  induction fs with
  | nil => rfl
  | cons e l ih =>
      rcases e with ⟨k, v⟩
      by_cases h : k = p
      · subst h
        simpa [fsErase, List.filter_cons] using ih
      · have hb : (k != p) = true := by simp [h]
        have hkp : (p == k) = false := by simp [Ne.symm h]
        simpa [fsErase, List.filter_cons, hb, fsLookup, List.lookup, hkp] using ih

/-- An attempt whose transfer streams to completion but whose
post-transfer verification returns `False` deletes the destination and
raises the checksum-failure message (lines 269-272). -/
theorem attemptOnce_ok_verify_false (H : HashFam) (fs' : FS)
    (out c alg : String) (resumeEff : Bool) (streamed : List Nat)
    (hc : c.isEmpty = false)
    (hv : verify_file H
        (fsWrite fs' out
          ((if resumeEff then (fsLookup fs' out).getD [] else []) ++ streamed))
        out c alg = .ok false) :
    attemptOnce H fs' out (some c) alg resumeEff (.ok streamed) =
      (fsErase
        (fsWrite fs' out
          ((if resumeEff then (fsLookup fs' out).getD [] else []) ++ streamed)) out,
       .error ("Checksum verification failed for " ++ out)) := by
  simp [attemptOnce, downloadWithResume, strGiven, hc, hv]

/-- Element access in the delay schedule. -/
theorem delays_map_getD (f : Nat → ℚ) (n i : Nat) (h : i < n) :
    ((List.range n).map f).getD i 0 = f i := by
  simp [List.getD_eq_getElem?_getD, List.getElem?_map, List.getElem?_range, h]

/-- C1: evaluation of `download_file` at the failing input.  With no
expected checksum and a first attempt that streams to completion, the
returned result has `success = true` and — because line 263 initialises
`checksum_verified` to `True` before the `if expected_checksum:` guard —
also `checksum_verified = true`, although no digest was supplied or
compared.  The claim (and the spec invariant it quotes) requires
`checksum_verified = false` here. -/
theorem success_without_checksum_marked_verified :
    (download_file demoHash defaultConfig (fun _ => .ok [7]) 5 [] "server.jar"
      none "sha256" true).result.success = true ∧
    (download_file demoHash defaultConfig (fun _ => .ok [7]) 5 [] "server.jar"
      none "sha256" true).result.checksum_verified = true :=
  ⟨by decide, by decide⟩

/-- C2 counterexample: with an expected checksum, a first attempt whose
transfer completes but whose digest mismatches, and a second attempt whose
digest matches, `download_file` itself re-attempts the transfer after the
mismatch (two attempts made, one backoff sleep recorded) and returns
success — refuting the claim that a post-transfer verification failure is
reported to the caller without the executor re-attempting the transfer. -/
theorem checksum_mismatch_retried_internally :
    (download_file demoHash defaultConfig
      (fun k => if k == 0 then .ok [9] else .ok [1, 2, 3]) 5 [] "f.jar"
      (some "aaaaaaaaa") "sha256" true).attemptsMade = 2 ∧
    (download_file demoHash defaultConfig
      (fun k => if k == 0 then .ok [9] else .ok [1, 2, 3]) 5 [] "f.jar"
      (some "aaaaaaaaa") "sha256" true).delays.length = 1 ∧
    (download_file demoHash defaultConfig
      (fun k => if k == 0 then .ok [9] else .ok [1, 2, 3]) 5 [] "f.jar"
      (some "aaaaaaaaa") "sha256" true).result.success = true :=
  ⟨by decide, by decide, by decide⟩

/-- C2 as amended: when every attempt's transfer completes but the digest
never matches the (truthy) expected checksum, each mismatch deletes the
destination and raises a checksum failure — but `download_file` catches
its own checksum error in the retry loop and re-attempts, making
`max_retries + 1` attempts in total with `max_retries` backoff sleeps;
only after exhaustion does it return the failure outcome carrying the
checksum-failure message, with the destination deleted. -/
theorem checksum_mismatch_deletes_file_and_exhausts_retries
    (H : HashFam) (cfg : DownloadConfig) (bs : Nat → List Nat) (elapsed : ℚ)
    (fs : FS) (output c alg : String) (resume : Bool)
    (hsup : ALGORITHMS.contains (pyLower alg) = true)
    (hc : c.isEmpty = false)
    (hmiss : ∀ data, pyLower (H (pyLower alg) data) ≠ pyLower c) :
    (download_file H cfg (fun k => .ok (bs k)) elapsed fs output (some c) alg
      resume).result.success = false ∧
    (download_file H cfg (fun k => .ok (bs k)) elapsed fs output (some c) alg
      resume).result.error_message =
        some ("Checksum verification failed for " ++ output) ∧
    (download_file H cfg (fun k => .ok (bs k)) elapsed fs output (some c) alg
      resume).attemptsMade = cfg.max_retries + 1 ∧
    fsLookup (download_file H cfg (fun k => .ok (bs k)) elapsed fs output (some c)
      alg resume).fs output = none ∧
    (download_file H cfg (fun k => .ok (bs k)) elapsed fs output (some c) alg
      resume).delays.length = cfg.max_retries := by
  have hsup' : pyLower alg ∈ ALGORITHMS := by simpa using hsup
  have hAtt : ∀ a fs',
      (attemptOnce H fs' output (some c) alg (resume && decide (0 < a))
        ((fun k => TransportEvent.ok (bs k)) a)).2 =
        .error ("Checksum verification failed for " ++ output) ∧
      fsLookup (attemptOnce H fs' output (some c) alg (resume && decide (0 < a))
        ((fun k => TransportEvent.ok (bs k)) a)).1 output = none := by
    intro a fs'
    have hv : verify_file H
        (fsWrite fs' output
          ((if resume && decide (0 < a) then (fsLookup fs' output).getD [] else [])
            ++ bs a))
        output c alg = .ok false := by
      simp [verify_file, hsup', fsLookup_fsWrite_self, hmiss _]
    rw [attemptOnce_ok_verify_false H fs' output c alg _ _ hc hv]
    exact ⟨rfl, fsLookup_fsErase _ _⟩
  obtain ⟨hA, hO, hQ⟩ := downloadLoop_all_error H cfg (fun k => .ok (bs k)) output
    (some c) alg resume (fun f => fsLookup f output = none)
    (fun _ => "Checksum verification failed for " ++ output) hAtt
    cfg.max_retries 0 fs
  have hred : download_file H cfg (fun k => .ok (bs k)) elapsed fs output (some c)
      alg resume =
      downloadMain H cfg (fun k => .ok (bs k)) elapsed fs output (some c) alg
        resume := by
    cases hl : fsLookup fs output with
    | none => simp [download_file, hl]
    | some data =>
        have hv0 : verify_file H fs output c alg = .ok false := by
          simp [verify_file, hsup', hl, hmiss data]
        simp [download_file, hl, strGiven, hc, hv0]
  obtain ⟨s1, s2, s3⟩ := downloadLoop_spec H cfg (fun k => .ok (bs k)) output
    (some c) alg resume (cfg.max_retries + 1) 0 fs
  rw [hred]
  refine ⟨?_, ?_, ?_, ?_, ?_⟩
  · rw [downloadMain_result_error H cfg (fun k => .ok (bs k)) elapsed fs output
      (some c) alg resume _ hO]
  · rw [downloadMain_result_error H cfg (fun k => .ok (bs k)) elapsed fs output
      (some c) alg resume _ hO]
  · rw [downloadMain_attempts]
    exact hA
  · rw [downloadMain_fs]
    exact hQ
  · rw [downloadMain_delays, s3]
    simp [hA]

/-- Witness for the amended C2: a concrete run (expected checksum `"zzz"`,
which no `demoHash` digest ever equals) where all four attempts mismatch
and the final outcome is the checksum failure with the file deleted. -/
theorem checksum_mismatch_exhausts_retries_witness :
    ALGORITHMS.contains (pyLower "sha256") = true ∧
    ("zzz" : String).isEmpty = false ∧
    (download_file demoHash defaultConfig (fun _ => .ok [9]) 5 [] "f.jar"
      (some "zzz") "sha256" true).result.success = false ∧
    (download_file demoHash defaultConfig (fun _ => .ok [9]) 5 [] "f.jar"
      (some "zzz") "sha256" true).attemptsMade = defaultConfig.max_retries + 1 :=
  ⟨by decide, by decide,
   (checksum_mismatch_deletes_file_and_exhausts_retries demoHash defaultConfig
      (fun _ => [9]) 5 [] "f.jar" "zzz" "sha256" true (by decide) (by decide)
      (by
        intro data h
        have h' : (List.replicate (data.foldl (fun a b => a + b + 1) 0) 'a').map
            Char.toLower = "zzz".data.map Char.toLower :=
          congrArg String.data h
        rw [List.map_replicate] at h'
        have hzz : "zzz".data.map Char.toLower = ['z', 'z', 'z'] := by decide
        rw [hzz] at h'
        have hz : 'z' ∈ List.replicate (data.foldl (fun a b => a + b + 1) 0)
            (Char.toLower 'a') := by
          rw [h']
          decide
        exact absurd (List.mem_replicate.mp hz).2 (by decide))).1,
   (checksum_mismatch_deletes_file_and_exhausts_retries demoHash defaultConfig
      (fun _ => [9]) 5 [] "f.jar" "zzz" "sha256" true (by decide) (by decide)
      (by
        intro data h
        have h' : (List.replicate (data.foldl (fun a b => a + b + 1) 0) 'a').map
            Char.toLower = "zzz".data.map Char.toLower :=
          congrArg String.data h
        rw [List.map_replicate] at h'
        have hzz : "zzz".data.map Char.toLower = ['z', 'z', 'z'] := by decide
        rw [hzz] at h'
        have hz : 'z' ∈ List.replicate (data.foldl (fun a b => a + b + 1) 0)
            (Char.toLower 'a') := by
          rw [h']
          decide
        exact absurd (List.mem_replicate.mp hz).2 (by decide))).2.2.1⟩

/-- C3 counterexample: with every attempt answered by HTTP 404 under the
default configuration, `download_file` makes all four attempts and records
three backoff sleeps before failing — refuting the claim that a permanent
status such as 404 aborts immediately with no further retries or sleeps. -/
theorem http404_retried_not_aborted :
    (download_file demoHash defaultConfig (fun _ => .httpError 404 "Not Found")
      5 [] "f.jar" none "sha256" true).attemptsMade = 4 ∧
    (download_file demoHash defaultConfig (fun _ => .httpError 404 "Not Found")
      5 [] "f.jar" none "sha256" true).delays.length = 3 ∧
    (download_file demoHash defaultConfig (fun _ => .httpError 404 "Not Found")
      5 [] "f.jar" none "sha256" true).result.success = false :=
  ⟨by decide, by decide, by decide⟩

/-- C3 as amended: `download_file` classifies nothing as permanent — every
HTTP error status other than the 416-while-resuming success case is
retried uniformly: with a constant HTTP error the executor makes
`max_retries + 1` attempts with `max_retries` backoff sleeps and only then
returns the failure outcome. -/
theorem non416_http_error_retried_uniformly (H : HashFam) (cfg : DownloadConfig)
    (code : Nat) (reason : String) (elapsed : ℚ) (fs : FS)
    (output alg : String) (resume : Bool)
    (hcode : (code == 416) = false) :
    (download_file H cfg (fun _ => .httpError code reason) elapsed fs output
      none alg resume).attemptsMade = cfg.max_retries + 1 ∧
    (download_file H cfg (fun _ => .httpError code reason) elapsed fs output
      none alg resume).result.success = false ∧
    (download_file H cfg (fun _ => .httpError code reason) elapsed fs output
      none alg resume).result.error_message =
        some ("HTTP Error " ++ toString code ++ ": " ++ reason) ∧
    (download_file H cfg (fun _ => .httpError code reason) elapsed fs output
      none alg resume).delays.length = cfg.max_retries := by
  have hAtt : ∀ a fs',
      (attemptOnce H fs' output none alg (resume && decide (0 < a))
        ((fun _ => TransportEvent.httpError code reason) a)).2 =
        .error ("HTTP Error " ++ toString code ++ ": " ++ reason) ∧
      True := by
    intro a fs'
    refine ⟨?_, trivial⟩
    simp [attemptOnce, downloadWithResume, hcode]
  obtain ⟨hA, hO, _⟩ := downloadLoop_all_error H cfg
    (fun _ => TransportEvent.httpError code reason) output none alg resume
    (fun _ => True)
    (fun _ => "HTTP Error " ++ toString code ++ ": " ++ reason) hAtt
    cfg.max_retries 0 fs
  obtain ⟨s1, s2, s3⟩ := downloadLoop_spec H cfg
    (fun _ => TransportEvent.httpError code reason) output none alg resume
    (cfg.max_retries + 1) 0 fs
  rw [download_file_no_expected]
  refine ⟨?_, ?_, ?_, ?_⟩
  · rw [downloadMain_attempts]
    exact hA
  · rw [downloadMain_result_error H cfg
      (fun _ => TransportEvent.httpError code reason) elapsed fs output none alg
      resume _ hO]
  · rw [downloadMain_result_error H cfg
      (fun _ => TransportEvent.httpError code reason) elapsed fs output none alg
      resume _ hO]
  · rw [downloadMain_delays, s3]
    simp [hA]

/-- Witness for the amended C3 at status 404. -/
theorem non416_http_error_retried_witness :
    ((404 : Nat) == 416) = false ∧
    (download_file demoHash defaultConfig
      (fun _ => .httpError 404 "Not Found") 5 [] "f.jar" none "sha256"
      true).attemptsMade = defaultConfig.max_retries + 1 ∧
    (download_file demoHash defaultConfig
      (fun _ => .httpError 404 "Not Found") 5 [] "f.jar" none "sha256"
      true).result.error_message =
        some ("HTTP Error " ++ toString (404 : Nat) ++ ": " ++ "Not Found") :=
  ⟨by decide,
   (non416_http_error_retried_uniformly demoHash defaultConfig 404 "Not Found"
      5 [] "f.jar" "sha256" true (by decide)).1,
   (non416_http_error_retried_uniformly demoHash defaultConfig 404 "Not Found"
      5 [] "f.jar" "sha256" true (by decide)).2.2.1⟩

/-- C4 counterexample: the `resume` flag is not part of the short-circuit's
precondition — with `resume = False`, an existing destination matching the
expected checksum still returns success immediately with
`download_time = 0.0` and no transfer attempt, refuting the claim that the
precondition includes the resume flag being enabled. -/
theorem short_circuit_ignores_resume_flag :
    (download_file demoHash defaultConfig (fun _ => .urlError "x") 7
      [("srv.jar", [1, 2, 3])] "srv.jar" (some "aaaaaaaaa") "sha256"
      false).result.success = true ∧
    (download_file demoHash defaultConfig (fun _ => .urlError "x") 7
      [("srv.jar", [1, 2, 3])] "srv.jar" (some "aaaaaaaaa") "sha256"
      false).result.download_time = 0 ∧
    (download_file demoHash defaultConfig (fun _ => .urlError "x") 7
      [("srv.jar", [1, 2, 3])] "srv.jar" (some "aaaaaaaaa") "sha256"
      false).result.checksum_verified = true ∧
    (download_file demoHash defaultConfig (fun _ => .urlError "x") 7
      [("srv.jar", [1, 2, 3])] "srv.jar" (some "aaaaaaaaa") "sha256"
      false).attemptsMade = 0 :=
  ⟨by decide, by decide, by decide, by decide⟩

/-- C4 as amended: whenever the destination exists and a (truthy) expected
checksum is supplied that the existing file matches, `download_file`
returns success immediately with `download_time = 0.0`,
`checksum_verified = true`, the expected digest as the recorded value, and
no transfer attempt, sleep, or filesystem change — for either value of the
`resume` flag, which the short-circuit does not consult. -/
theorem existing_verified_file_short_circuits (H : HashFam)
    (cfg : DownloadConfig) (env : Nat → TransportEvent) (elapsed : ℚ) (fs : FS)
    (output c alg : String) (resume : Bool) (content : List Nat)
    (hx : fsLookup fs output = some content)
    (hc : c.isEmpty = false)
    (hv : verify_file H fs output c alg = .ok true) :
    download_file H cfg env elapsed fs output (some c) alg resume =
      ⟨⟨true, some output, none, content.length, 0, true, some c⟩, [], 0, fs⟩ := by
  simp [download_file, hx, strGiven, hc, hv]

/-- Witness for the amended C4, with `resume = true` as in the claim. -/
theorem existing_verified_file_short_circuits_witness :
    fsLookup [("srv.jar", [1, 2, 3])] "srv.jar" = some [1, 2, 3] ∧
    ("aaaaaaaaa" : String).isEmpty = false ∧
    verify_file demoHash [("srv.jar", [1, 2, 3])] "srv.jar" "aaaaaaaaa"
      "sha256" = .ok true ∧
    download_file demoHash defaultConfig (fun _ => .urlError "x") 7
      [("srv.jar", [1, 2, 3])] "srv.jar" (some "aaaaaaaaa") "sha256" true =
      ⟨⟨true, some "srv.jar", none, 3, 0, true, some "aaaaaaaaa"⟩, [], 0,
       [("srv.jar", [1, 2, 3])]⟩ :=
  ⟨by decide, by decide, rfl,
   existing_verified_file_short_circuits demoHash defaultConfig
     (fun _ => .urlError "x") 7 [("srv.jar", [1, 2, 3])] "srv.jar" "aaaaaaaaa"
     "sha256" true [1, 2, 3] (by decide) (by decide) rfl⟩

/-- C5 counterexample: the claim quantifies over every configuration, but
with `retry_backoff = 1` (a legal configuration) and a persistent
transport error the three recorded delays are all equal to `retry_delay`,
so the delay sequence does not strictly increase. -/
theorem constant_backoff_delays_not_increasing :
    (download_file demoHash constantBackoffConfig
      (fun _ => .urlError "unreachable") 5 [] "f" none "sha256"
      true).delays.length = 3 ∧
    (download_file demoHash constantBackoffConfig
      (fun _ => .urlError "unreachable") 5 [] "f" none "sha256"
      true).delays.getD 0 0 = 1 ∧
    (download_file demoHash constantBackoffConfig
      (fun _ => .urlError "unreachable") 5 [] "f" none "sha256"
      true).delays.getD 1 0 = 1 := by
  have hAtt : ∀ (a : Nat) (fs' : FS),
      (attemptOnce demoHash fs' "f" none "sha256" (true && decide (0 < a))
        ((fun _ => TransportEvent.urlError "unreachable") a)).2 =
        .error ("URL Error: unreachable") ∧ True :=
    fun _ _ => ⟨rfl, trivial⟩
  obtain ⟨hA, hO, _⟩ := downloadLoop_all_error demoHash constantBackoffConfig
    (fun _ => TransportEvent.urlError "unreachable") "f" none "sha256" true
    (fun _ => True) (fun _ => "URL Error: unreachable") hAtt 3 0 []
  obtain ⟨s1, s2, s3⟩ := downloadLoop_spec demoHash constantBackoffConfig
    (fun _ => TransportEvent.urlError "unreachable") "f" none "sha256" true
    (constantBackoffConfig.max_retries + 1) 0 []
  have hA' : (downloadLoop demoHash constantBackoffConfig
      (fun _ => TransportEvent.urlError "unreachable") "f" none "sha256" true
      (constantBackoffConfig.max_retries + 1) 0 []).attemptsMade = 4 := by
    have hfour : constantBackoffConfig.max_retries + 1 = 3 + 1 := rfl
    rw [hfour]
    exact hA
  rw [download_file_no_expected, downloadMain_delays, s3, hA']
  refine ⟨by simp, ?_, ?_⟩
  · rw [delays_map_getD _ _ _ (by norm_num)]
    norm_num [constantBackoffConfig]
  · rw [delays_map_getD _ _ _ (by norm_num)]
    norm_num [constantBackoffConfig]

/-- C5 as amended: for every configuration, `download_file` makes at most
`max_retries + 1` transfer attempts and the k-th recorded sleep (0-based,
counting from the first attempt) is exactly
`retry_delay * retry_backoff ^ k`; whenever `retry_delay > 0` and
`retry_backoff > 1` — as with the defaults — consecutive recorded delays
strictly increase. -/
theorem retry_attempt_bound_and_delay_schedule (H : HashFam)
    (cfg : DownloadConfig) (env : Nat → TransportEvent) (elapsed : ℚ) (fs : FS)
    (output : String) (exp : Option String) (alg : String) (resume : Bool)
    (hd : 0 < cfg.retry_delay) (hb : 1 < cfg.retry_backoff) :
    (download_file H cfg env elapsed fs output exp alg resume).attemptsMade ≤
      cfg.max_retries + 1 ∧
    (download_file H cfg env elapsed fs output exp alg resume).delays =
      (List.range
        ((download_file H cfg env elapsed fs output exp alg
          resume).attemptsMade - 1)).map
        (fun k => cfg.retry_delay * cfg.retry_backoff ^ k) ∧
    (∀ i, i + 1 <
        (download_file H cfg env elapsed fs output exp alg resume).delays.length →
      (download_file H cfg env elapsed fs output exp alg resume).delays.getD i 0 <
        (download_file H cfg env elapsed fs output exp alg resume).delays.getD
          (i + 1) 0) := by
  rcases download_file_main_or_short H cfg env elapsed fs output exp alg resume
    with heq | ⟨hdel, hatt⟩
  · obtain ⟨s1, s2, s3⟩ := downloadLoop_spec H cfg env output exp alg resume
      (cfg.max_retries + 1) 0 fs
    have hdeq : (download_file H cfg env elapsed fs output exp alg resume).delays =
        (List.range
          ((download_file H cfg env elapsed fs output exp alg
            resume).attemptsMade - 1)).map
          (fun k => cfg.retry_delay * cfg.retry_backoff ^ k) := by
      rw [heq, downloadMain_delays, downloadMain_attempts, s3]
      refine List.map_congr_left ?_
      intro a _
      simp
    refine ⟨?_, hdeq, ?_⟩
    · rw [heq, downloadMain_attempts]
      exact s1
    · intro i hi
      rw [hdeq] at hi ⊢
      simp only [List.length_map, List.length_range] at hi
      rw [delays_map_getD _ _ _ (by omega), delays_map_getD _ _ _ (by omega)]
      show cfg.retry_delay * cfg.retry_backoff ^ i <
        cfg.retry_delay * cfg.retry_backoff ^ (i + 1)
      exact mul_lt_mul_of_pos_left
        (pow_lt_pow_right₀ hb (Nat.lt_succ_self i)) hd
  · refine ⟨?_, ?_, ?_⟩
    · rw [hatt]
      omega
    · rw [hdel, hatt]
      rfl
    · intro i hi
      rw [hdel] at hi
      simp at hi

/-- Witness for the amended C5 under the default configuration and a
persistently failing transport. -/
theorem retry_delay_schedule_witness :
    (0 : ℚ) < defaultConfig.retry_delay ∧
    (1 : ℚ) < defaultConfig.retry_backoff ∧
    (download_file demoHash defaultConfig (fun _ => .urlError "down") 5 [] "f"
      none "sha256" true).attemptsMade ≤ defaultConfig.max_retries + 1 ∧
    (download_file demoHash defaultConfig (fun _ => .urlError "down") 5 [] "f"
      none "sha256" true).delays.getD 0 0 <
      (download_file demoHash defaultConfig (fun _ => .urlError "down") 5 [] "f"
        none "sha256" true).delays.getD 1 0 :=
  ⟨by norm_num [defaultConfig], by norm_num [defaultConfig],
   (retry_attempt_bound_and_delay_schedule demoHash defaultConfig
     (fun _ => .urlError "down") 5 [] "f" none "sha256" true
     (by norm_num [defaultConfig]) (by norm_num [defaultConfig])).1,
   (retry_attempt_bound_and_delay_schedule demoHash defaultConfig
     (fun _ => .urlError "down") 5 [] "f" none "sha256" true
     (by norm_num [defaultConfig]) (by norm_num [defaultConfig])).2.2 0
     (by decide)⟩

/-- Keys of `dictInsert`: inserting an existing key leaves the key list
unchanged, a new key is appended. -/
theorem dictInsert_keys (d : List (String × DownloadResult)) (k : String)
    (v : DownloadResult) :
    (dictInsert d k v).map Prod.fst =
      if d.any (fun e => e.1 == k) = true then d.map Prod.fst
      else d.map Prod.fst ++ [k] := by
  by_cases h : d.any (fun e => e.1 == k) = true
  · simp only [dictInsert, h, if_true, List.map_map]
    refine List.map_congr_left ?_
    intro e _
    by_cases he : (e.1 == k) = true <;> simp [he, Function.comp]
  · have h' : d.any (fun e => e.1 == k) = false := Bool.eq_false_iff.mpr h
    simp [dictInsert, h']

/-- The inserted key is always a key of the result. -/
theorem mem_keys_dictInsert_self (d : List (String × DownloadResult))
    (k : String) (v : DownloadResult) :
    k ∈ (dictInsert d k v).map Prod.fst := by
  rw [dictInsert_keys]
  by_cases h : d.any (fun e => e.1 == k) = true
  · rw [if_pos h]
    simp only [List.any_eq_true, beq_iff_eq] at h
    obtain ⟨e, he, hk⟩ := h
    exact hk ▸ List.mem_map_of_mem Prod.fst he
  · rw [if_neg h]
    exact List.mem_append_right _ (by simp)

/-- Existing keys survive `dictInsert`. -/
theorem mem_keys_dictInsert_of_mem (d : List (String × DownloadResult))
    (k : String) (v : DownloadResult) (u : String)
    (h : u ∈ d.map Prod.fst) :
    u ∈ (dictInsert d k v).map Prod.fst := by
  rw [dictInsert_keys]
  split
  · exact h
  · exact List.mem_append_left _ h

/-- Inserting a fresh key appends it to the key list. -/
theorem dictInsert_keys_of_notMem (d : List (String × DownloadResult))
    (k : String) (v : DownloadResult) (h : k ∉ d.map Prod.fst) :
    (dictInsert d k v).map Prod.fst = d.map Prod.fst ++ [k] := by
  rw [dictInsert_keys, if_neg]
  intro hany
  simp only [List.any_eq_true, beq_iff_eq] at hany
  obtain ⟨e, he, hk⟩ := hany
  exact h (hk ▸ List.mem_map_of_mem Prod.fst he)

/-- Keys of the sequential batch fold, when the request URLs are distinct
and none of them is already a key of the accumulator: one key per request,
in order, after the accumulator's keys. -/
theorem batchSeq_keys_nodup (H : HashFam) (cfg : DownloadConfig)
    (envs : Nat → Nat → TransportEvent) (elap : Nat → ℚ) :
    ∀ (reqs : List (String × String)) (i : Nat) (fs : FS)
      (acc : List (String × DownloadResult)),
      (reqs.map Prod.fst).Nodup →
      (∀ u ∈ reqs.map Prod.fst, u ∉ acc.map Prod.fst) →
      ((batchSeq H cfg envs elap reqs i fs acc).1).map Prod.fst =
        acc.map Prod.fst ++ reqs.map Prod.fst := by
  intro reqs
  induction reqs with
  | nil =>
      intro i fs acc _ _
      simp [batchSeq]
  | cons hd tl ih =>
      intro i fs acc hnd hdisj
      rcases hd with ⟨url, path⟩
      simp only [List.map_cons] at hnd hdisj ⊢
      have hurl_notin : url ∉ tl.map Prod.fst := (List.nodup_cons.mp hnd).1
      have hnodup_tl : (tl.map Prod.fst).Nodup := (List.nodup_cons.mp hnd).2
      have hfresh : url ∉ acc.map Prod.fst := hdisj url (by simp)
      have hkeys := dictInsert_keys_of_notMem acc url
        (download_file H cfg (envs i) (elap i) fs path none "sha256" true).result
        hfresh
      have hdisj' : ∀ u ∈ tl.map Prod.fst,
          u ∉ (dictInsert acc url
            (download_file H cfg (envs i) (elap i) fs path none "sha256"
              true).result).map Prod.fst := by
        intro u hu hmem
        rw [hkeys] at hmem
        rcases List.mem_append.mp hmem with hm | hm
        · exact hdisj u (by simp [hu]) hm
        · simp only [List.mem_singleton] at hm
          exact hurl_notin (hm ▸ hu)
      simp only [batchSeq]
      rw [ih (i + 1) _ _ hnodup_tl hdisj', hkeys]
      simp [List.append_assoc]

/-- Every requested URL (and every key already in the accumulator) is a
key of the sequential batch fold's report. -/
theorem batchSeq_keys_mem (H : HashFam) (cfg : DownloadConfig)
    (envs : Nat → Nat → TransportEvent) (elap : Nat → ℚ) :
    ∀ (reqs : List (String × String)) (i : Nat) (fs : FS)
      (acc : List (String × DownloadResult)) (u : String),
      (u ∈ reqs.map Prod.fst ∨ u ∈ acc.map Prod.fst) →
      u ∈ ((batchSeq H cfg envs elap reqs i fs acc).1).map Prod.fst := by
  intro reqs
  induction reqs with
  | nil =>
      intro i fs acc u hu
      rcases hu with h | h
      · simp at h
      · simpa [batchSeq] using h
  | cons hd tl ih =>
      intro i fs acc u hu
      rcases hd with ⟨url, path⟩
      simp only [batchSeq]
      apply ih
      rcases hu with h | h
      · simp only [List.map_cons, List.mem_cons] at h
        rcases h with h | h
        · right
          exact h ▸ mem_keys_dictInsert_self _ _ _
        · left
          exact h
      · right
        exact mem_keys_dictInsert_of_mem _ _ _ _ h

/-- Keys of the parallel collection fold with pairwise-distinct URLs. -/
theorem parStep_foldl_keys_nodup (H : HashFam) (cfg : DownloadConfig)
    (envs : Nat → Nat → TransportEvent) (elap : Nat → ℚ) (fss : Nat → FS) :
    ∀ (completed : List (Nat × String × String))
      (acc : List (String × DownloadResult)),
      ((completed.map (fun x => x.2.1)).Nodup) →
      (∀ u ∈ completed.map (fun x => x.2.1), u ∉ acc.map Prod.fst) →
      (completed.foldl (parStep H cfg envs elap fss) acc).map Prod.fst =
        acc.map Prod.fst ++ completed.map (fun x => x.2.1) := by
  intro completed
  induction completed with
  | nil =>
      intro acc _ _
      simp
  | cons x l ih =>
      intro acc hnd hdisj
      simp only [List.map_cons] at hnd hdisj ⊢
      have hx_notin : x.2.1 ∉ l.map (fun x => x.2.1) := (List.nodup_cons.mp hnd).1
      have hnodup_l : (l.map (fun x => x.2.1)).Nodup := (List.nodup_cons.mp hnd).2
      have hfresh : x.2.1 ∉ acc.map Prod.fst := hdisj x.2.1 (by simp)
      have hkeys := dictInsert_keys_of_notMem acc x.2.1
        (download_file H cfg (envs x.1) (elap x.1) (fss x.1) x.2.2 none "sha256"
          true).result hfresh
      have hdisj' : ∀ u ∈ l.map (fun x => x.2.1),
          u ∉ (parStep H cfg envs elap fss acc x).map Prod.fst := by
        intro u hu hmem
        rw [parStep, hkeys] at hmem
        rcases List.mem_append.mp hmem with hm | hm
        · exact hdisj u (by simp [hu]) hm
        · simp only [List.mem_singleton] at hm
          exact hx_notin (hm ▸ hu)
      rw [List.foldl_cons, ih _ hnodup_l hdisj', parStep, hkeys]
      simp [List.append_assoc]

/-- Every completed URL (and every key already in the accumulator) is a
key of the parallel collection fold's report. -/
theorem parStep_foldl_keys_mem (H : HashFam) (cfg : DownloadConfig)
    (envs : Nat → Nat → TransportEvent) (elap : Nat → ℚ) (fss : Nat → FS) :
    ∀ (completed : List (Nat × String × String))
      (acc : List (String × DownloadResult)) (u : String),
      (u ∈ completed.map (fun x => x.2.1) ∨ u ∈ acc.map Prod.fst) →
      u ∈ ((completed.foldl (parStep H cfg envs elap fss) acc)).map Prod.fst := by
  intro completed
  induction completed with
  | nil =>
      intro acc u hu
      rcases hu with h | h
      · simp at h
      · simpa using h
  | cons x l ih =>
      intro acc u hu
      rw [List.foldl_cons]
      apply ih
      rcases hu with h | h
      · simp only [List.map_cons, List.mem_cons] at h
        rcases h with h | h
        · right
          rw [parStep]
          exact h ▸ mem_keys_dictInsert_self _ _ _
        · left
          exact h
      · right
        rw [parStep]
        exact mem_keys_dictInsert_of_mem _ _ _ _ h

/-- The URLs of the enumerated request list are the request URLs. -/
theorem enum_urls (requests : List (String × String)) :
    requests.enum.map (fun x : Nat × String × String => x.2.1) =
      requests.map Prod.fst := by
  rw [show (fun x : Nat × String × String => x.2.1) =
    (Prod.fst ∘ Prod.snd) from rfl]
  rw [← List.map_map, List.enum_map_snd]

/-- C6 as amended: when the request URLs are pairwise distinct, the report
of `batch_download` (either branch; for the parallel branch, under any
completion order of the submitted futures) has exactly the request URLs as
keys — one outcome per request — and this holds for every transport
oracle, so no single request's failure prevents the others from being
executed and reported.  With duplicate source URLs the `dict` keyed by URL
collapses them instead (see the counterexample). -/
theorem batch_report_covers_each_distinct_url (H : HashFam)
    (cfg : DownloadConfig) (envs : Nat → Nat → TransportEvent) (elap : Nat → ℚ)
    (fss : Nat → FS) (fs0 : FS) (requests : List (String × String))
    (parallel : Bool) (completed : List (Nat × String × String))
    (hnodup : (requests.map Prod.fst).Nodup)
    (hperm : completed.Perm requests.enum) :
    List.Perm
      ((batch_download H cfg envs elap fss fs0 requests parallel
        completed).map Prod.fst)
      (requests.map Prod.fst) := by
  have hmapperm : (completed.map (fun x => x.2.1)).Perm
      (requests.map Prod.fst) := by
    have h1 := hperm.map (fun x : Nat × String × String => x.2.1)
    rwa [enum_urls] at h1
  rw [batch_download]
  split
  · rw [batchPar, parStep_foldl_keys_nodup H cfg envs elap fss completed []
      (hmapperm.nodup_iff.mpr hnodup) (by simp)]
    simpa using hmapperm
  · rw [batchSeq_keys_nodup H cfg envs elap requests 0 fs0 [] hnodup (by simp)]
    simp

/-- Witness for the amended C6: two distinct-URL requests collected in
reverse completion order still yield a report keyed by exactly the two
URLs. -/
theorem batch_report_covers_witness :
    (([("u1", "a"), ("u2", "b")] : List (String × String)).map Prod.fst).Nodup ∧
    ([((1 : Nat), ("u2", "b")), (0, ("u1", "a"))] : List (Nat × String × String)).Perm
      ([("u1", "a"), ("u2", "b")] : List (String × String)).enum ∧
    List.Perm
      ((batch_download demoHash defaultConfig (fun _ _ => .urlError "down")
        (fun _ => 1) (fun _ => []) [] [("u1", "a"), ("u2", "b")] true
        [(1, ("u2", "b")), (0, ("u1", "a"))]).map Prod.fst)
      ([("u1", "a"), ("u2", "b")].map Prod.fst) :=
  ⟨by decide, by decide,
   batch_report_covers_each_distinct_url demoHash defaultConfig
     (fun _ _ => .urlError "down") (fun _ => 1) (fun _ => []) []
     [("u1", "a"), ("u2", "b")] true [(1, ("u2", "b")), (0, ("u1", "a"))]
     (by decide) (by decide)⟩

/-- C6 counterexample: two requests sharing the same source URL collapse
to a single entry in the URL-keyed report `dict`, so the report does not
contain an outcome for every request exactly once. -/
theorem duplicate_url_requests_collapse :
    ([("u", "a"), ("u", "b")] : List (String × String)).length = 2 ∧
    (batch_download demoHash defaultConfig (fun _ _ => .urlError "down")
      (fun _ => 1) (fun _ => []) [] [("u", "a"), ("u", "b")] false []).length
      = 1 :=
  ⟨by decide, by decide⟩

/-- C7: `batch_download` always returns a full report: an empty request
list is legal and yields an empty report, and — for every transport
oracle, including ones on which every attempt of every request raises —
every requested URL has an entry in the returned report.  In the model
`download_file` is total (its outer `except` turns any raised exception
into a failure outcome) and the parallel branch's worker boundary collects
one result per future, so no exception escapes the batch call. -/
theorem batch_total_and_empty_ok (H : HashFam) (cfg : DownloadConfig)
    (envs : Nat → Nat → TransportEvent) (elap : Nat → ℚ) (fss : Nat → FS)
    (fs0 : FS) (requests : List (String × String)) (parallel : Bool)
    (completed : List (Nat × String × String))
    (hperm : completed.Perm requests.enum) :
    batch_download H cfg envs elap fss fs0 [] parallel [] = [] ∧
    ∀ u ∈ requests.map Prod.fst,
      u ∈ (batch_download H cfg envs elap fss fs0 requests parallel
        completed).map Prod.fst := by
  constructor
  · simp [batch_download, batchSeq]
  · intro u hu
    have hmem_completed : u ∈ completed.map (fun x => x.2.1) := by
      rw [(hperm.map (fun x : Nat × String × String => x.2.1)).mem_iff,
        enum_urls]
      exact hu
    rw [batch_download]
    split
    · rw [batchPar]
      exact parStep_foldl_keys_mem H cfg envs elap fss completed [] u
        (Or.inl hmem_completed)
    · exact batchSeq_keys_mem H cfg envs elap requests 0 fs0 [] u (Or.inl hu)

/-- Witness for C7: the empty batch yields an empty report, and a
one-request batch whose transfer always fails still reports its URL. -/
theorem batch_total_and_empty_ok_witness :
    ([((0 : Nat), ("u", "a"))] : List (Nat × String × String)).Perm
      ([("u", "a")] : List (String × String)).enum ∧
    batch_download demoHash defaultConfig (fun _ _ => .urlError "x")
      (fun _ => 1) (fun _ => []) [] [] false [] = [] ∧
    "u" ∈ (batch_download demoHash defaultConfig (fun _ _ => .urlError "x")
      (fun _ => 1) (fun _ => []) [] [("u", "a")] false
      [(0, ("u", "a"))]).map Prod.fst :=
  ⟨by decide,
   (batch_total_and_empty_ok demoHash defaultConfig (fun _ _ => .urlError "x")
     (fun _ => 1) (fun _ => []) [] [("u", "a")] false [(0, ("u", "a"))]
     (by decide)).1,
   (batch_total_and_empty_ok demoHash defaultConfig (fun _ _ => .urlError "x")
     (fun _ => 1) (fun _ => []) [] [("u", "a")] false [(0, ("u", "a"))]
     (by decide)).2 "u" (by decide)⟩

/-- C8: requesting an algorithm outside `{md5, sha1, sha256, sha512}`
(after lowercasing) makes both `ChecksumVerifier.verify_file` and
`ChecksumVerifier.calculate_checksum` raise `ValueError` with the
unsupported-algorithm message; since `fs` is universally quantified, the
error is raised before any filesystem access — the result does not depend
on the filesystem at all. -/
theorem unsupported_algorithm_rejected (H : HashFam) (fs : FS)
    (path expected alg : String)
    (h : ALGORITHMS.contains (pyLower alg) = false) :
    verify_file H fs path expected alg =
      .error ("Unsupported checksum algorithm: " ++ pyLower alg) ∧
    calculate_checksum H fs path alg =
      .error ("Unsupported checksum algorithm: " ++ pyLower alg) := by
  have h' : pyLower alg ∉ ALGORITHMS := by simpa using h
  constructor <;> simp [verify_file, calculate_checksum, h']

/-- Witness for C8 at the unsupported algorithm `"crc32"`. -/
theorem unsupported_algorithm_rejected_witness :
    ALGORITHMS.contains (pyLower "crc32") = false ∧
    verify_file (fun _ _ => "") [("f", [1])] "f" "x" "crc32" =
      .error ("Unsupported checksum algorithm: " ++ pyLower "crc32") ∧
    calculate_checksum (fun _ _ => "") [("f", [1])] "f" "crc32" =
      .error ("Unsupported checksum algorithm: " ++ pyLower "crc32") :=
  ⟨by decide,
   (unsupported_algorithm_rejected (fun _ _ => "") [("f", [1])] "f" "x" "crc32"
     (by decide)).1,
   (unsupported_algorithm_rejected (fun _ _ => "") [("f", [1])] "f" "x" "crc32"
     (by decide)).2⟩

/-- C9: for an existing file and a supported algorithm,
`calculate_checksum` returns the digest of the file's contents, and
`verify_file` accepts any expected string whose lowercasing equals the
digest's lowercasing — in particular the digest itself (the round trip)
and any case variant of it (case-insensitive comparison). -/
theorem checksum_round_trip (H : HashFam) (fs : FS) (path alg : String)
    (data : List Nat)
    (hsup : ALGORITHMS.contains (pyLower alg) = true)
    (hx : fsLookup fs path = some data) :
    calculate_checksum H fs path alg = .ok (some (H (pyLower alg) data)) ∧
    ∀ expected, pyLower expected = pyLower (H (pyLower alg) data) →
      verify_file H fs path expected alg = .ok true := by
  have h' : pyLower alg ∈ ALGORITHMS := by simpa using hsup
  constructor
  · simp [calculate_checksum, h', hx]
  · intro expected hexp
    simp [verify_file, h', hx, hexp]

/-- Witness for C9: digest and verify a concrete file, including an
upper-case variant of the digest. -/
theorem checksum_round_trip_witness :
    ALGORITHMS.contains (pyLower "SHA256") = true ∧
    fsLookup [("f", [1, 2])] "f" = some [1, 2] ∧
    calculate_checksum demoHash [("f", [1, 2])] "f" "SHA256" =
      .ok (some (demoHash (pyLower "SHA256") [1, 2])) ∧
    verify_file demoHash [("f", [1, 2])] "f" "AAAAA" "SHA256" = .ok true :=
  ⟨by decide, by decide,
   (checksum_round_trip demoHash [("f", [1, 2])] "f" "SHA256" [1, 2]
     (by decide) (by decide)).1,
   (checksum_round_trip demoHash [("f", [1, 2])] "f" "SHA256" [1, 2]
     (by decide) (by decide)).2 "AAAAA" (by decide)⟩

/-- C10: for a supported algorithm and a path that does not exist,
`verify_file` returns `False` and `calculate_checksum` returns `None`,
in both cases without raising. -/
theorem missing_file_checks (H : HashFam) (fs : FS) (path expected alg : String)
    (hsup : ALGORITHMS.contains (pyLower alg) = true)
    (hx : fsLookup fs path = none) :
    verify_file H fs path expected alg = .ok false ∧
    calculate_checksum H fs path alg = .ok none := by
  have h' : pyLower alg ∈ ALGORITHMS := by simpa using hsup
  constructor <;> simp [verify_file, calculate_checksum, h', hx]

/-- Witness for C10 at a concrete missing path. -/
theorem missing_file_checks_witness :
    ALGORITHMS.contains (pyLower "sha1") = true ∧
    fsLookup [("other", [1])] "nope" = none ∧
    verify_file demoHash [("other", [1])] "nope" "deadbeef" "sha1" = .ok false ∧
    calculate_checksum demoHash [("other", [1])] "nope" "sha1" = .ok none :=
  ⟨by decide, by decide,
   (missing_file_checks demoHash [("other", [1])] "nope" "deadbeef" "sha1"
     (by decide) (by decide)).1,
   (missing_file_checks demoHash [("other", [1])] "nope" "deadbeef" "sha1"
     (by decide) (by decide)).2⟩

end DownloadManagerModel
